import Mathlib

/-!
Shallow embedding of the NotebookLM storage adapter
(openviking/storage/notebooklm_backend.py) and of its configuration object
(openviking/utils/config/notebooklm_config.py), together with proofs that
settle the frozen claims about this code.

Modelling conventions.  Python dictionaries are modelled as association
lists with unique keys; in-place update and removal are modelled key-wise
(Python dict keys are unique, so replacing or removing every binding of a
key coincides with replacing or removing its single binding).  The values
stored in record dictionaries in this adapter are strings or None, so the
value type is an inductive with a null and a string constructor.  External
effects (the out-of-process NotebookLM client, uuid.uuid4, hashlib.sha256)
are modelled by an explicit environment of oracle functions; the oracle for
add_text_source returns what the adapter would extract from the reply (the
optional source handle), and the oracle for delete_source returns whether
the reply confirmed the deletion.  The mutable backend state (the local
source cache and the uuid supply counter) is passed explicitly.  Fallible
operations return Except; Python exception paths the adapter re-raises are
mapped to error values, and exception paths the adapter swallows are mapped
to the fallback results the handlers return.  Strings manipulated by the
naming codec are modelled as lists of characters.
-/

namespace NLM

/-- Values stored in record dictionaries of this adapter: None or a string. -/
inductive Val where
  | null
  | str (s : String)
deriving DecidableEq

/-- A record, as cached by the backend: a Python dict from field name to value. -/
abbrev RecD := List (String × Val)

/-- Python d.get(k): the value bound to the first occurrence of key k. -/
def alGet {α : Type} : List (String × α) → String → Option α
  | [], _ => none
  | (k, v) :: rest, k2 => if k = k2 then some v else alGet rest k2

/-- Python (k in d). -/
def alHas {α : Type} (d : List (String × α)) (k : String) : Bool :=
  (alGet d k).isSome

/-- Python d[k] = v: replace the binding of k in place, else append it. -/
def alSet {α : Type} : List (String × α) → String → α → List (String × α)
  | [], k, v => [(k, v)]
  | (k1, v1) :: rest, k, v =>
    if k1 = k then (k, v) :: rest else (k1, v1) :: alSet rest k v

/-- Python d.pop(k, None): remove the binding of k (keys are unique). -/
def alPop {α : Type} : List (String × α) → String → List (String × α)
  | [], _ => []
  | (k1, v) :: rest, k => if k1 = k then alPop rest k else (k1, v) :: alPop rest k

/-- Python dict spread a-then-b, as in a literal with a trailing double-star b:
keys of a in order with values overridden by b, then the new keys of b. -/
def dictMerge (a b : RecD) : RecD :=
  a.map (fun kv => (kv.1, (alGet b kv.1).getD kv.2)) ++
    b.filter (fun kv => !(alHas a kv.1))

/-- Python truthiness of an optional adapter value (None, missing and the
empty string are falsy). -/
def pyTruthyVal : Option Val → Bool
  | some (.str s) => s != ""
  | some .null => false
  | none => false

/-- Python truthiness of an optional string field. -/
def pyTruthyStr : Option String → Bool
  | some s => s != ""
  | none => false

theorem alGet_append {α : Type} (x y : List (String × α)) (k : String) :
    alGet (x ++ y) k =
      match alGet x k with
      | some v => some v
      | none => alGet y k := by
  induction x with
  | nil => simp [alGet]
  | cons kv rest ih =>
    obtain ⟨k1, v1⟩ := kv
    by_cases h : k1 = k <;> simp [alGet, h, ih]

theorem alGet_map_keyed {α : Type} (d : List (String × α)) (k : String)
    (g : String → α → α) :
    alGet (d.map (fun kv => (kv.1, g kv.1 kv.2))) k = (alGet d k).map (g k) := by
  induction d with
  | nil => simp [alGet]
  | cons kv rest ih =>
    obtain ⟨k1, v1⟩ := kv
    by_cases h : k1 = k
    · subst h; simp [alGet]
    · simp [alGet, h, ih]

theorem alGet_filter_other {α : Type} (d : List (String × α)) (k : String)
    (p : String × α → Bool) (hp : ∀ v, p (k, v) = true) :
    alGet (d.filter p) k = alGet d k := by
  induction d with
  | nil => simp [alGet]
  | cons kv rest ih =>
    obtain ⟨k1, v1⟩ := kv
    by_cases h : k1 = k
    · subst h
      simp [List.filter, hp v1, alGet, ih]
    · cases hpk : p (k1, v1) <;> simp [List.filter, hpk, alGet, h, ih]

/-- Looking a key up in a merged dict: the second dict wins where bound. -/
theorem alGet_dictMerge (a b : RecD) (k : String) :
    alGet (dictMerge a b) k =
      match alGet b k with
      | some v => some v
      | none => alGet a k := by
  unfold dictMerge
  rw [alGet_append]
  rw [alGet_map_keyed a k (fun k1 v1 => (alGet b k1).getD v1)]
  cases ha : alGet a k with
  | some va =>
    cases hb : alGet b k <;> simp [Option.getD]
  | none =>
    rw [alGet_filter_other b k _ (by intro v; simp [alHas, ha])]
    cases hb : alGet b k <;> simp

theorem alGet_alSet_self {α : Type} (d : List (String × α)) (k : String) (v : α) :
    alGet (alSet d k v) k = some v := by
  induction d with
  | nil => simp [alSet, alGet]
  | cons kv rest ih =>
    obtain ⟨k1, v1⟩ := kv
    by_cases hk : k1 = k
    · rw [alSet, if_pos hk]; simp [alGet]
    · rw [alSet, if_neg hk]; simp [alGet, hk, ih]

theorem alGet_alSet_other {α : Type} (d : List (String × α)) (k k2 : String)
    (v : α) (h : k ≠ k2) : alGet (alSet d k v) k2 = alGet d k2 := by
  induction d with
  | nil => simp [alSet, alGet, h]
  | cons kv rest ih =>
    obtain ⟨k1, v1⟩ := kv
    by_cases hk : k1 = k
    · rw [alSet, if_pos hk]
      subst hk
      simp [alGet, h]
    · rw [alSet, if_neg hk]
      by_cases hk2 : k1 = k2 <;> simp [alGet, hk2, ih]

theorem alGet_alPop_self {α : Type} (d : List (String × α)) (k : String) :
    alGet (alPop d k) k = none := by
  induction d with
  | nil => rfl
  | cons kv rest ih =>
    obtain ⟨k1, v1⟩ := kv
    by_cases hk : k1 = k
    · rw [alPop, if_pos hk]; exact ih
    · rw [alPop, if_neg hk]; simp [alGet, hk, ih]

theorem alGet_alPop_other {α : Type} (d : List (String × α)) (k k2 : String)
    (h : k ≠ k2) : alGet (alPop d k) k2 = alGet d k2 := by
  induction d with
  | nil => rfl
  | cons kv rest ih =>
    obtain ⟨k1, v1⟩ := kv
    by_cases hk : k1 = k
    · rw [alPop, if_pos hk]
      subst hk
      simp [alGet, h, ih]
    · rw [alPop, if_neg hk]
      by_cases hk2 : k1 = k2 <;> simp [alGet, hk2, ih]

/-! ### The naming codec (config.format_source_name and _parse_source_name)

Source names are delimited strings; the codec is modelled over lists of
characters.  splitC models Python str.split with an explicit one-character
separator (empty fields preserved), joinC models str.join. -/

/-- Python s.split(d) for a one-character separator d. -/
def splitC (d : Char) : List Char → List (List Char)
  | [] => [[]]
  | c :: rest =>
    match splitC d rest with
    | [] => [[c]]
    | h :: t => if c = d then [] :: h :: t else (c :: h) :: t

/-- Python d.join(parts) for a one-character separator d. -/
def joinC (d : Char) : List (List Char) → List Char
  | [] => []
  | [x] => x
  | x :: y :: t => x ++ d :: joinC d (y :: t)

theorem splitC_ne_nil (d : Char) (s : List Char) : splitC d s ≠ [] := by
  cases s with
  | nil => simp [splitC]
  | cons c rest =>
    simp only [splitC]
    cases splitC d rest with
    | nil => simp
    | cons h t => by_cases hc : c = d <;> simp [hc]

/-- Splitting at an explicit separator occurrence splits the two sides. -/
theorem splitC_append (d : Char) (a b : List Char) :
    splitC d (a ++ d :: b) = splitC d a ++ splitC d b := by
  induction a with
  | nil =>
    simp only [List.nil_append, splitC]
    cases hs : splitC d b with
    | nil => exact absurd hs (splitC_ne_nil d b)
    | cons h t => simp
  | cons c a' ih =>
    obtain ⟨h, t, hs⟩ : ∃ h t, splitC d a' = h :: t := by
      cases hs : splitC d a' with
      | nil => exact absurd hs (splitC_ne_nil d a')
      | cons h t => exact ⟨h, t, rfl⟩
    rw [List.cons_append]
    simp only [splitC]
    rw [ih, hs]
    by_cases hc : c = d <;> simp [hc]

/-- A separator-free string splits into a single field. -/
theorem splitC_no_delim (d : Char) (a : List Char) (h : d ∉ a) :
    splitC d a = [a] := by
  induction a with
  | nil => rfl
  | cons c a' ih =>
    have hc : c ≠ d := by
      intro hcd; exact h (by simp [hcd])
    have ha' : d ∉ a' := fun hm => h (List.mem_cons_of_mem _ hm)
    simp [splitC, ih ha', hc]

/-- Joining undoes splitting. -/
theorem joinC_splitC (d : Char) (s : List Char) :
    joinC d (splitC d s) = s := by
  induction s with
  | nil => rfl
  | cons c rest ih =>
    obtain ⟨h, t, hs⟩ : ∃ h t, splitC d rest = h :: t := by
      cases hs : splitC d rest with
      | nil => exact absurd hs (splitC_ne_nil d rest)
      | cons h t => exact ⟨h, t, rfl⟩
    rw [hs] at ih
    simp only [splitC, hs]
    by_cases hc : c = d
    · subst hc
      simp only [if_pos rfl, joinC]
      rw [List.nil_append, ih]
    · simp only [if_neg hc]
      cases t with
      | nil =>
        simp only [joinC] at ih ⊢
        rw [ih]
      | cons t0 ts =>
        simp only [joinC] at ih ⊢
        rw [List.cons_append, ih]

theorem getLastD_append_single (xs : List (List Char)) (a : List Char) :
    (xs ++ [a]).getLastD [] = a := by
  induction xs with
  | nil => rfl
  | cons x xs ih =>
    cases xs with
    | nil => rfl
    | cons y ys => simpa using ih

theorem dropLast_append_single (xs : List (List Char)) (a : List Char) :
    (xs ++ [a]).dropLast = xs := by
  induction xs with
  | nil => rfl
  | cons x xs ih =>
    cases xs with
    | nil => rfl
    | cons y ys => simpa using ih

/-- Python str.format restricted to the placeholders the naming pattern may
use: each occurrence of one of the five known placeholders is replaced by the
corresponding field, all other characters are copied verbatim.  This models
source_naming_pattern.format(...) for the patterns this adapter validates
(literal text plus these placeholders). -/
def fmtSubst (tier ct uh ti st : List Char) : List Char → List Char
  | '{' :: 't' :: 'i' :: 'e' :: 'r' :: '}' :: r => tier ++ fmtSubst tier ct uh ti st r
  | '{' :: 'c' :: 'o' :: 'n' :: 't' :: 'e' :: 'x' :: 't' :: '_' :: 't' :: 'y' :: 'p' :: 'e' :: '}' :: r =>
      ct ++ fmtSubst tier ct uh ti st r
  | '{' :: 'u' :: 'r' :: 'i' :: '_' :: 'h' :: 'a' :: 's' :: 'h' :: '}' :: r =>
      uh ++ fmtSubst tier ct uh ti st r
  | '{' :: 't' :: 'i' :: 't' :: 'l' :: 'e' :: '}' :: r => ti ++ fmtSubst tier ct uh ti st r
  | '{' :: 's' :: 't' :: 'a' :: 't' :: 'u' :: 's' :: '}' :: r => st ++ fmtSubst tier ct uh ti st r
  | c :: r => c :: fmtSubst tier ct uh ti st r
  | [] => []

/-- The default source_naming_pattern of NotebookLMConfig. -/
def defaultPatternL : List Char :=
  "{tier}-{context_type}-{uri_hash}-{title}-ACTIVE".toList

/-- Instantiating the default pattern is plain delimited concatenation; the
status argument is dropped because the default pattern has no status
placeholder. -/
theorem fmtSubst_default (tier ct uh ti st : List Char) :
    fmtSubst tier ct uh ti st defaultPatternL =
      tier ++ '-' :: (ct ++ '-' :: (uh ++ '-' :: (ti ++ '-' :: "ACTIVE".toList))) := by
  rfl

/-- Result of NotebookLMBackend._parse_source_name: the five recovered
fields, or the raw fallback for names that do not split into five parts. -/
inductive ParsedName where
  | fields (tier ct uh title status : List Char)
  | raw (s : List Char)
deriving DecidableEq

/-- NotebookLMBackend._parse_source_name. -/
def parseSourceName (s : List Char) : ParsedName :=
  let parts := splitC '-' s
  if parts.length ≥ 5 then
    .fields (parts.getD 0 []) (parts.getD 1 []) (parts.getD 2 [])
      (joinC '-' ((parts.drop 3).dropLast)) (parts.getLastD [])
  else .raw s

/-- Boolean list-prefix test. -/
def isPrefixL : List Char → List Char → Bool
  | [], _ => true
  | _ :: _, [] => false
  | a :: as, b :: bs => a = b && isPrefixL as bs

/-- Boolean substring test (Python in-operator on strings). -/
def hasSub : List Char → List Char → Bool
  | n, [] => isPrefixL n []
  | n, c :: t => isPrefixL n (c :: t) || hasSub n t

/-- Word count of Python content.split() (split on whitespace runs, no empty
fields); the Bool argument records whether the previous character was inside
a word. -/
def cwAux : Bool → List Char → Nat
  | _, [] => 0
  | inWord, c :: r =>
    if c.isWhitespace then cwAux false r
    else (if inWord then 0 else 1) + cwAux true r

/-- len(content.split()) for a content string. -/
def wordCount (s : String) : Nat := cwAux false s.toList

/-- len(content.split()) if content else 0, as computed in insert. -/
def contentLen (s : String) : Nat := if s = "" then 0 else wordCount s

/-- Content-length tiers. -/
inductive Tier where
  | L0
  | L1
  | L2
deriving DecidableEq

def tierRank : Tier → Nat
  | .L0 => 0
  | .L1 => 1
  | .L2 => 2

def tierName : Tier → String
  | .L0 => "L0"
  | .L1 => "L1"
  | .L2 => "L2"

/-- The tier chosen by insert from the content length and the configured
integer thresholds for L0 and L1 (lines 439-445 of the backend). -/
def tierOf (t0 t1 : Int) (clen : Nat) : Tier :=
  if (clen : Int) ≤ t0 then .L0
  else if (clen : Int) ≤ t1 then .L1
  else .L2

/-! ### NotebookLMConfig -/

/-- NotebookLMConfig: the four configuration fields the adapter reads. -/
structure NLMConfig where
  notebook_mapping : List (String × String)
  default_notebook_id : Option String
  tier_config : List (String × Int)
  source_naming_pattern : List Char

/-- Errors raised by NotebookLMConfig.validate_config, carrying the data the
raised message interpolates. -/
inductive CfgError where
  | noNotebook
  | missingTiers (missing : List String)
  | patternMissingTier
deriving DecidableEq

def requiredTiers : List String := ["L0", "L1", "L2"]

/-- NotebookLMConfig.validate_config: the three eager construction checks, in
source order. -/
def validateConfig (cfg : NLMConfig) : Except CfgError Unit :=
  if cfg.notebook_mapping = [] ∧ pyTruthyStr cfg.default_notebook_id = false then
    .error .noNotebook
  else if requiredTiers.filter (fun t => !(alHas cfg.tier_config t)) ≠ [] then
    .error (.missingTiers (requiredTiers.filter (fun t => !(alHas cfg.tier_config t))))
  else if !(hasSub ("{tier}".toList) cfg.source_naming_pattern) then
    .error .patternMissingTier
  else .ok ()

/-- NotebookLMConfig.get_notebook_id: mapping hit, else truthy fallback, else
ValueError. -/
def getNotebookId (cfg : NLMConfig) (collection : String) : Except String String :=
  match alGet cfg.notebook_mapping collection with
  | some nb => .ok nb
  | none =>
    if pyTruthyStr cfg.default_notebook_id then
      .ok (cfg.default_notebook_id.getD "")
    else
      .error ("Collection " ++ collection ++
        " not mapped and no default_notebook_id configured")

/-- NotebookLMConfig.format_source_name: instantiate the configured naming
pattern. -/
def formatSourceName (cfg : NLMConfig) (tier ct uh ti st : List Char) : List Char :=
  fmtSubst tier ct uh ti st cfg.source_naming_pattern

/-! ### Filter condition trees and the filter evaluator -/

/-- A JSON-ish filter value, as consumed by _matches_filter and search: a
node models a Python dict through the keys the code reads (op, conds, field,
query); condsPresent records whether the conds key is present at all (the
code distinguishes key-absent from an empty list only through the membership
test conds-in-filter); extraKeys records whether the dict holds further keys
(which only matters for its truthiness).  A scalar models a non-dict list
element (the isinstance checks). -/
inductive FT where
  | node (op : Option String) (condsPresent : Bool) (conds : List FT)
      (field : Option String) (query : Option String) (extraKeys : Bool)
  | scalar (v : Val)

/-- Python truthiness of a filter dict (or of a scalar in its place). -/
def ftTruthy : FT → Bool
  | .node o cp _ f q e => !(o = none && !cp && f = none && q = none && !e)
  | .scalar v => pyTruthyVal (some v)

/-- The dead leaf comparison record.get(field) in expected: the record value
equals some non-dict element of the expected list. -/
def condsMem (v : Option Val) (l : List FT) : Bool :=
  l.any (fun it =>
    match it with
    | .scalar w => v = some w
    | .node _ _ _ _ _ _ => false)

/-- The leaf branch of _matches_filter (conds is falsy): field-equality
against the expected values, vacuously true when the field is falsy, absent
from the record, or the expected list is empty.  Since the expected list is
read from the same conds key that was just found falsy, the comparison is
unreachable. -/
def leafBranch (r : RecD) (field : Option String) (conds : List FT) : Bool :=
  match field with
  | some fld =>
    if fld != "" && alHas r fld then
      if !conds.isEmpty then condsMem (alGet r fld) conds else true
    else true
  | none => true

mutual

/-- NotebookLMBackend._matches_filter (lines 796-822). -/
def matchesFilter (r : RecD) : FT → Bool
  | .scalar _ => true
  | .node o cp cs fl q e =>
    if !(ftTruthy (.node o cp cs fl q e)) then true
    else if !cp then leafBranch r fl []
    else
      match cs with
      | [] => leafBranch r fl []
      | c0 :: crest =>
        let results := collectResults r (c0 :: crest)
        let opv := o.getD "and"
        if opv = "and" then (if results.isEmpty then true else results.all id)
        else if opv = "or" then (if results.isEmpty then true else results.any id)
        else true

/-- The loop collecting recursive results over the dict-valued conditions. -/
def collectResults (r : RecD) : List FT → List Bool
  | [] => []
  | .scalar _ :: rest => collectResults r rest
  | .node o cp cs fl q e :: rest =>
      matchesFilter r (.node o cp cs fl q e) :: collectResults r rest

end

mutual

/-- The filter evaluator is constantly true: the field-equality comparison is
unreachable, so no condition can ever reject a record. -/
theorem matchesFilter_true (r : RecD) : (f : FT) → matchesFilter r f = true
  | .scalar _ => rfl
  | .node o cp cs fl q e => by
    rw [matchesFilter.eq_def]
    simp only
    by_cases ht : ftTruthy (.node o cp cs fl q e) = true
    case neg => simp [ht]
    rw [if_neg (by simp [ht])]
    by_cases hcp : cp = true
    case neg =>
      rw [if_pos (by simp [hcp])]
      cases fl with
      | none => rfl
      | some fld => simp [leafBranch]
    rw [if_neg (by simp [hcp])]
    cases cs with
    | nil =>
      cases fl with
      | none => rfl
      | some fld => simp [leafBranch]
    | cons c0 crest =>
      simp only
      have hall : ∀ b ∈ collectResults r (c0 :: crest), b = true :=
        collectResults_true r (c0 :: crest)
      by_cases hand : o.getD "and" = "and"
      · rw [if_pos hand]
        cases hres : collectResults r (c0 :: crest) with
        | nil => simp
        | cons b bs =>
          rw [hres] at hall
          have hba : (b :: bs).all id = true := by
            rw [List.all_eq_true]
            intro x hx
            simpa using hall x hx
          simp [hba]
      · rw [if_neg hand]
        by_cases hor : o.getD "and" = "or"
        · rw [if_pos hor]
          cases hres : collectResults r (c0 :: crest) with
          | nil => simp
          | cons b bs =>
            rw [hres] at hall
            have hbb : b = true := hall b (List.mem_cons_self b bs)
            have hba : (b :: bs).any id = true := by
              rw [List.any_eq_true]
              exact ⟨b, List.mem_cons_self b bs, by simpa using hbb⟩
            simp [hba]
        · rw [if_neg hor]

/-- Every collected recursive result is true. -/
theorem collectResults_true (r : RecD) :
    (l : List FT) → ∀ b ∈ collectResults r l, b = true
  | [] => by simp [collectResults]
  | .scalar v :: rest => by
    rw [collectResults]
    exact collectResults_true r rest
  | .node o cp cs fl q e :: rest => by
    rw [collectResults]
    intro b hb
    rcases List.mem_cons.mp hb with hb | hb
    · rw [hb]; exact matchesFilter_true r (.node o cp cs fl q e)
    · exact collectResults_true r rest b hb

end

/-! ### The backend: environment, state, and operations -/

/-- Result of the add_text_source call, as insert consumes it: fail covers
every path on which insert raises (transport failure or an error status in
the reply); ok carries the optional source handle insert extracts from the
reply. -/
inductive AddRes where
  | fail
  | ok (sourceId : Option String)

/-- One source hit of the external query reply. -/
structure SrcHit where
  title : String
  snippet : String
  source_id : Option String

/-- Result of the external query call, as search consumes it. -/
inductive QueryRes where
  | qfail
  | qok (sources : List SrcHit)

/-- The external world: client availability (the pipx venv check), the uuid4
supply, the truncated sha256 of _uri_hash, and the external calls the
modelled operations make. -/
structure Env where
  avail : Bool
  uuid : Nat → String
  sha8 : String → String
  addText : String → String → String → AddRes
  delSource : String → Bool
  nquery : String → String → QueryRes

/-- Per-collection record dict of the cache. -/
abbrev ColDict := List (String × RecD)

/-- The mutable backend state: the local source cache and the uuid supply
counter. -/
structure St where
  cache : List (String × ColDict)
  fresh : Nat

/-- Errors insert propagates (insert re-raises on failure): client
unavailable, unresolved collection, failed external call, or a Python
exception from ill-typed record values. -/
inductive InsErr where
  | unavailable
  | collectionNotFound (msg : String)
  | insertFailed
  | crash
deriving DecidableEq

/-- context_type = data.get("context_type", "resource"), kept as the raw
value (it is stored back into the cache entry unrendered). -/
def ctValOf (data : RecD) : Val :=
  (alGet data "context_type").getD (.str "resource")

/-- Python str() rendering, as str.format applies it to a value. -/
def renderVal : Val → String
  | .null => "None"
  | .str s => s

/-- record_id = data.get("id") or str(uuid.uuid4()): the chosen id and the
next uuid supply counter. -/
def chooseRecordId (env : Env) (data : RecD) (fresh : Nat) : String × Nat :=
  match alGet data "id" with
  | some (.str s) => if s = "" then (env.uuid fresh, fresh + 1) else (s, fresh)
  | _ => (env.uuid fresh, fresh + 1)

/-- uri = data.get("uri", viking default); a None uri value crashes the
subsequent string operations (insert re-raises the exception). -/
def resolveUri (collection record_id : String) (data : RecD) : Except InsErr String :=
  match alGet data "uri" with
  | none => .ok ("viking://" ++ collection ++ "/" ++ record_id)
  | some (.str s) => .ok s
  | some .null => .error .crash

/-- data.get("abstract", ""): the last member of the content fallback chain;
a None abstract flows into the external call and crashes there (insert
re-raises the exception). -/
def resolveContentAbstract (data : RecD) : Except InsErr String :=
  match alGet data "abstract" with
  | none => .ok ""
  | some (.str s) => .ok s
  | some .null => .error .crash

/-- data.get("text") or data.get("abstract", ""). -/
def resolveContentText (data : RecD) : Except InsErr String :=
  match alGet data "text" with
  | some (.str s) => if s = "" then resolveContentAbstract data else .ok s
  | _ => resolveContentAbstract data

/-- content = data.get("content") or data.get("text") or
data.get("abstract", ""). -/
def resolveContent (data : RecD) : Except InsErr String :=
  match alGet data "content" with
  | some (.str s) => if s = "" then resolveContentText data else .ok s
  | _ => resolveContentText data

/-- tier_config subscripts in insert; a missing key is a KeyError insert
re-raises. -/
def tierThresholds (cfg : NLMConfig) : Except InsErr (Int × Int) :=
  match alGet cfg.tier_config "L0", alGet cfg.tier_config "L1" with
  | some t0, some t1 => .ok (t0, t1)
  | _, _ => .error .crash

/-- data.get("title"): a None value and an absent key both give no title. -/
def titleOf (data : RecD) : Option String :=
  match alGet data "title" with
  | some (.str s) => some s
  | _ => none

/-- The cached source_id value: the extracted handle or None. -/
def optStrVal : Option String → Val
  | some s => .str s
  | none => .null

/-- NotebookLMBackend._build_source_name: derive the title from the uri when
absent, truncate to 50 characters, and instantiate the naming pattern. -/
def buildSourceName (env : Env) (cfg : NLMConfig) (uri : String) (tier ct : String)
    (title : Option String) : List Char :=
  let uri_hash := env.sha8 uri
  let t0 :=
    match title with
    | some t => t
    | none =>
      if uri.toList.contains '/' then String.mk ((splitC '/' uri.toList).getLastD [])
      else uri
  formatSourceName cfg tier.toList ct.toList uri_hash.toList (t0.toList.take 50)
    ("ACTIVE".toList)

/-- NotebookLMBackend.insert (lines 417-494): resolve the notebook, derive
id, uri, content, tier and source name, call the external add_text_source,
then cache the merged entry (caller data spread last) and return the id.
Errors leave the state unchanged, as in the source every cache mutation
happens after the last fallible step. -/
def insert (cfg : NLMConfig) (env : Env) (st : St) (collection : String) (data : RecD) :
    Except InsErr (String × St) :=
  if !env.avail then .error .unavailable
  else
    match getNotebookId cfg collection with
    | .error m => .error (.collectionNotFound m)
    | .ok notebook_id =>
      let idfr := chooseRecordId env data st.fresh
      match resolveUri collection idfr.1 data with
      | .error e => .error e
      | .ok uri =>
        match resolveContent data with
        | .error e => .error e
        | .ok content =>
          let context_type := ctValOf data
          match tierThresholds cfg with
          | .error e => .error e
          | .ok tt =>
            let tier := tierName (tierOf tt.1 tt.2 (contentLen content))
            let source_name := buildSourceName env cfg uri tier (renderVal context_type)
              (titleOf data)
            match env.addText notebook_id content (String.mk source_name) with
            | .fail => .error .insertFailed
            | .ok source_id =>
              let base : RecD :=
                [("id", .str idfr.1),
                 ("source_id", optStrVal source_id),
                 ("uri", .str uri),
                 ("source_name", .str (String.mk source_name)),
                 ("tier", .str tier),
                 ("context_type", context_type)]
              let entry := dictMerge base data
              let colD := (alGet st.cache collection).getD []
              .ok (idfr.1, ⟨alSet st.cache collection (alSet colD idfr.1 entry), idfr.2⟩)

/-- NotebookLMBackend.get: collect the cached entries of the requested ids. -/
def get (st : St) (collection : String) (ids : List String) : List RecD :=
  ids.filterMap (fun i => alGet ((alGet st.cache collection).getD []) i)

/-- NotebookLMBackend.exists: membership in the cached collection dict. -/
def existsRec (st : St) (collection : String) (id : String) : Bool :=
  alHas ((alGet st.cache collection).getD []) id

/-- cache.get(collection, {}).pop(record_id, None). -/
def popRec (st : St) (collection id : String) : St :=
  match alGet st.cache collection with
  | none => st
  | some d => ⟨alSet st.cache collection (alPop d id), st.fresh⟩

/-- The per-id loop of NotebookLMBackend.delete: confirmed external deletion
or a falsy cached source handle evicts the entry and counts it; a failed
external deletion leaves the entry cached and uncounted. -/
def deleteGo (env : Env) (collection : String) : St → List String → Nat × St
  | st, [] => (0, st)
  | st, record_id :: rest =>
    match alGet ((alGet st.cache collection).getD []) record_id with
    | none => deleteGo env collection st rest
    | some cached =>
      match alGet cached "source_id" with
      | some (.str sid) =>
        if sid ≠ "" then
          if env.delSource sid then
            let nst := deleteGo env collection (popRec st collection record_id) rest
            (nst.1 + 1, nst.2)
          else deleteGo env collection st rest
        else
          let nst := deleteGo env collection (popRec st collection record_id) rest
          (nst.1 + 1, nst.2)
      | _ =>
        let nst := deleteGo env collection (popRec st collection record_id) rest
        (nst.1 + 1, nst.2)

/-- NotebookLMBackend.delete (lines 535-573); an unavailable client raises
inside the try block, which is swallowed, returning the zero count. -/
def delete (env : Env) (st : St) (collection : String) (ids : List String) : Nat × St :=
  if env.avail then deleteGo env collection st ids else (0, st)

/-- NotebookLMBackend.update (lines 496-522): read the cached record, merge
the caller fields over it, force the id, delete, then reinsert; a failed
reinsertion is swallowed (returns false) but keeps the deletion. -/
def update (cfg : NLMConfig) (env : Env) (st : St) (collection id : String) (data : RecD) :
    Bool × St :=
  match get st collection [id] with
  | [] => (false, st)
  | existing0 :: _ =>
    let updated := dictMerge (dictMerge existing0 data) [("id", .str id)]
    let st1 := (delete env st collection [id]).2
    match insert cfg env st1 collection updated with
    | .ok rs => (true, rs.2)
    | .error _ => (false, st1)

/-- NotebookLMBackend.batch_insert (lines 601-607): a plain loop over insert;
an insert error propagates, keeping the state reached so far. -/
def batchInsert (cfg : NLMConfig) (env : Env) (collection : String) :
    St → List RecD → Except InsErr (List String) × St
  | st, [] => (.ok [], st)
  | st, d :: ds =>
    match insert cfg env st collection d with
    | .error e => (.error e, st)
    | .ok rs =>
      match batchInsert cfg env collection rs.2 ds with
      | (.ok rids, st2) => (.ok (rs.1 :: rids), st2)
      | (.error e, st2) => (.error e, st2)

/-- Ordering on sort keys.  Python raises TypeError when comparing None with
a string; the order here totalises that case for definiteness (no verified
claim exercises the sort branch). -/
def valLeB : Val → Val → Bool
  | .null, _ => true
  | .str _, .null => false
  | .str a, .str b => a ≤ b

def insertSorted (le : RecD → RecD → Bool) (x : RecD) : List RecD → List RecD
  | [] => [x]
  | y :: ys => if le x y then x :: y :: ys else y :: insertSorted le x ys

def insSortBy (le : RecD → RecD → Bool) : List RecD → List RecD
  | [] => []
  | x :: xs => insertSorted le x (insSortBy le xs)

/-- sorted(records, key=lambda r: r.get(order_by, ""), reverse=order_desc). -/
def sortRecords (ob : String) (desc : Bool) (records : List RecD) : List RecD :=
  let key := fun r : RecD => (alGet r ob).getD (.str "")
  if desc then insSortBy (fun a b => valLeB (key b) (key a)) records
  else insSortBy (fun a b => valLeB (key a) (key b)) records

/-- NotebookLMBackend.filter (lines 737-794): list the cached records, keep
the ones matching a truthy filter, sort, slice offset and limit, and project
the requested output fields (id always kept). -/
def filterRecords (st : St) (collection : String) (f : FT) (limit offset : Nat)
    (output_fields : Option (List String)) (order_by : Option String)
    (order_desc : Bool) : List RecD :=
  let cache := (alGet st.cache collection).getD []
  let records := cache.map Prod.snd
  let records :=
    if ftTruthy f then records.filter (fun r => matchesFilter r f) else records
  let records :=
    match order_by with
    | some ob => if ob ≠ "" ∧ records ≠ [] then sortRecords ob order_desc records
                 else records
    | none => records
  let records := (records.drop offset).take limit
  match output_fields with
  | some fields =>
    records.map (fun r => r.filter (fun kv => fields.contains kv.1 || kv.1 == "id"))
  | none => records

/-! ### search and its query-text extraction -/

/-- Outcome of the query-text extraction inside search. -/
inductive ExtRes where
  | noText
  | text (s : String)
  | crashEx
deriving DecidableEq

/-- What the scan over the conds list assigns to query_text: the loop may
finish without a break, assign a string, None or a dict from the first
query-field condition, or crash (attribute access on a non-dict condition,
or indexing an empty conds list). -/
inductive ScanR where
  | finished
  | gotStr (s : String)
  | gotNull
  | gotDict
  | crashed

/-- The loop over filter.get("conds", []) in search looking for a
query-field condition. -/
def scanQueryConds : List FT → ScanR
  | [] => .finished
  | .scalar _ :: _ => .crashed
  | .node _ cp2 cs2 f2 _ _ :: rest =>
    if f2 = some "query" then
      if cp2 then
        match cs2 with
        | [] => .crashed
        | x :: _ =>
          match x with
          | .scalar (.str s) => .gotStr s
          | .scalar .null => .gotNull
          | .node _ _ _ _ _ _ => .gotDict
      else .gotStr ""
    else scanQueryConds rest

/-- The query-text extraction of search (lines 681-694): filter.get("query")
first, else the first query-field condition; a falsy result means search
returns empty without an external call, and the crash outcomes are swallowed
by the surrounding handler into the same empty result. -/
def extractQ : Option FT → ExtRes
  | none => .noText
  | some (.scalar _) => .noText
  | some (.node o cp cs fl q e) =>
    if !(ftTruthy (.node o cp cs fl q e)) then .noText
    else
      let q0 := q.getD ""
      if q0 ≠ "" then .text q0
      else if cp then
        match scanQueryConds cs with
        | .finished => .noText
        | .gotStr s => if s = "" then .noText else .text s
        | .gotNull => .noText
        | .gotDict => .crashEx
        | .crashed => .crashEx
      else .noText

/-- The synthetic descending score 1.0 - 0.1 * rank (floats modelled as
exact rationals). -/
def scoreAt (i : Nat) : ℚ := 1 - (i : ℚ) / 10

/-- The result-building loop of search: parse each source title back into
fields and form the interface record; the score is carried beside the record
dict.  The uuid fallback for a missing source id draws from the supply at
offset i. -/
def buildHits (env : Env) (collection : String) (fr : Nat)
    (ofields : Option (List String)) : Nat → List SrcHit → List (RecD × ℚ)
  | _, [] => []
  | i, s :: rest =>
    let parsed := parseSourceName s.title.toList
    let idv :=
      match s.source_id with
      | some sid => sid
      | none => env.uuid (fr + i)
    let rec0 : RecD :=
      [("id", .str idv),
       ("uri", .str ("viking://" ++ collection ++ "/" ++
          (match parsed with | .fields _ _ uh _ _ => String.mk uh | .raw _ => "unknown"))),
       ("content", .str s.snippet),
       ("title", .str (match parsed with
          | .fields _ _ _ t _ => String.mk t
          | .raw _ => s.title)),
       ("context_type", .str (match parsed with
          | .fields _ ct _ _ _ => String.mk ct
          | .raw _ => "resource"))]
    let rec1 :=
      match ofields with
      | some fields => rec0.filter (fun kv => fields.contains kv.1 || kv.1 == "id")
      | none => rec0
    (rec1, scoreAt i) :: buildHits env collection fr ofields (i + 1) rest

/-- NotebookLMBackend.search (lines 646-735).  The query_vector and
sparse_query_vector parameters are never read, with_vector is never read; an
unavailable client or any swallowed exception returns the empty list; an
unresolved collection raises CollectionNotFoundError; without extractable
query text the external query is never consulted and the empty list is
returned. -/
def search (cfg : NLMConfig) (env : Env) (st : St) (collection : String)
    (query_vector : Option (List Int))
    (sparse_query_vector : Option (List (String × Int)))
    (filter : Option FT) (limit offset : Nat) (output_fields : Option (List String))
    (with_vector : Bool) : Except String (List (RecD × ℚ)) :=
  if !env.avail then .ok []
  else
    match getNotebookId cfg collection with
    | .error m => .error m
    | .ok notebook_id =>
      match extractQ filter with
      | .noText => .ok []
      | .crashEx => .ok []
      | .text query_text =>
        match env.nquery notebook_id query_text with
        | .qfail => .ok []
        | .qok sources =>
          let records := buildHits env collection st.fresh output_fields 0
            (sources.take limit)
          .ok (if offset ≠ 0 then (records.drop offset).take limit
               else records.take limit)

/-! ### Concrete fixtures used by the claim theorems -/

/-- A configuration with one mapped collection, no fallback, the default
tiers and the default naming pattern. -/
def exCfg : NLMConfig :=
  ⟨[("c", "nb1")], none, [("L0", 100), ("L1", 2000), ("L2", 0)], defaultPatternL⟩

/-- A concrete external world: available client, deterministic uuid supply
and hash, an add_text_source oracle failing exactly on the content boom, a
delete_source oracle confirming every deletion, and a failing query. -/
def exEnv : Env :=
  ⟨true, fun n => "uuid-" ++ toString n, fun _ => "abcd1234",
   fun _ text _ => if text = "boom" then .fail else .ok (some ("src-" ++ text)),
   fun _ => true, fun _ _ => .qfail⟩

/-- A record literal with just an id and content. -/
def exIns (i c : String) : RecD := [("id", .str i), ("content", .str c)]

def c1rec : RecD := [("id", .str "r1"), ("f", .str "a")]

/-- A leaf field-equality condition requiring field f to equal v. -/
def c1leaf (v : String) : FT := .node none true [.scalar (.str v)] (some "f") none false

/-- The conjunction of two mutually exclusive leaf conditions on field f. -/
def c1filter : FT := .node (some "and") true [c1leaf "v1", c1leaf "v2"] none none false

/-- The empty condition tree (an empty dict). -/
def c1emptyFilter : FT := .node none false [] none none false

def c1st : St := ⟨[("c", [("r1", c1rec)])], 0⟩

/-! ### Claim theorems -/

/-- Claim C1 (code bug exhibited).  Filtering the one-record cache with the
empty condition tree returns the cached record, as the claim states; but the
conjunction of the two mutually exclusive field-equality conditions (field f
required equal to v1 and to v2, while the record holds a) also returns the
record instead of none: the evaluator accepts every record, because its
field-equality comparison sits in the branch where the conds list was just
found empty and so can never run. -/
theorem c1_filter_conjunction_bug :
    filterRecords c1st "c" c1emptyFilter 10 0 none none false = [c1rec] ∧
    filterRecords c1st "c" c1filter 10 0 none none false = [c1rec] := by
  exact ⟨rfl, rfl⟩

/-- The dict-valued entries of a conds list (the isinstance guard of the
result-collecting loop). -/
def subFT : FT → Option FT
  | .node o cp cs f q e => some (.node o cp cs f q e)
  | .scalar _ => none

/-- Claim C2.  On a filter node whose operator is neither and nor or and
whose conds list is non-empty, the evaluator returns the conjunction of the
recursive results over the dict-valued sub-conditions.  (On this code both
sides are constantly true, so the stated equation holds.) -/
theorem c2_unknown_op_conjunction (r : RecD) (o : String) (cs : List FT)
    (fl q : Option String) (e : Bool)
    (h1 : o ≠ "and") (h2 : o ≠ "or") (h3 : cs ≠ []) :
    matchesFilter r (.node (some o) true cs fl q e) =
      (cs.filterMap subFT).all (fun s => matchesFilter r s) := by
  rw [matchesFilter_true r]
  symm
  rw [List.all_eq_true]
  intro s hs
  exact matchesFilter_true r s

/-- Witness for C2 at a concrete unknown operator. -/
theorem c2_unknown_op_conjunction_witness :
    matchesFilter [] (FT.node (some "xor") true [FT.scalar Val.null] none none false) =
      (([FT.scalar Val.null]).filterMap subFT).all (fun s => matchesFilter [] s) :=
  c2_unknown_op_conjunction [] "xor" [FT.scalar Val.null] none none false
    (by decide) (by decide) (List.cons_ne_nil _ _)

/-- Claim C6.  Tier assignment is monotone in the computed content length for
any integer thresholds. -/
theorem c6_tier_monotone (t0 t1 : Int) (c1 c2 : String)
    (h : contentLen c1 ≤ contentLen c2) :
    tierRank (tierOf t0 t1 (contentLen c1)) ≤
      tierRank (tierOf t0 t1 (contentLen c2)) := by
  have hi : ((contentLen c1 : Int)) ≤ ((contentLen c2 : Int)) := by exact_mod_cast h
  unfold tierOf
  split_ifs <;> simp_all [tierRank] <;> omega

/-- Witness for C6 at the default thresholds and two concrete contents. -/
theorem c6_tier_monotone_witness :
    tierRank (tierOf 100 2000 (contentLen "a b")) ≤
      tierRank (tierOf 100 2000 (contentLen "a b c")) :=
  c6_tier_monotone 100 2000 "a b" "a b c" (by decide)

/-- A constructible configuration whose fallback is present but empty. -/
def c7cfg : NLMConfig :=
  ⟨[("a", "x")], some "", [("L0", 100), ("L1", 2000), ("L2", 0)], defaultPatternL⟩

/-- Claim C7 counterexample.  The configuration passes validation (the
mapping is non-empty), its fallback is set (to the empty string), yet
resolving an unmapped name raises instead of returning the fallback: the
code tests the fallback for truthiness, not for presence. -/
theorem c7_cex :
    validateConfig c7cfg = .ok () ∧
    getNotebookId c7cfg "b" =
      .error ("Collection " ++ "b" ++
        " not mapped and no default_notebook_id configured") := by
  exact ⟨rfl, rfl⟩

/-- Claim C7 (amended).  A mapped name resolves to its mapped id; an unmapped
name resolves to the fallback when the fallback is set to a non-empty
string; with no mapping entry and no non-empty fallback, resolution raises
ValueError. -/
theorem c7_amended_resolution (cfg : NLMConfig) (name : String) :
    (∀ nb, alGet cfg.notebook_mapping name = some nb →
      getNotebookId cfg name = .ok nb) ∧
    (∀ d, alGet cfg.notebook_mapping name = none →
      cfg.default_notebook_id = some d → d ≠ "" →
      getNotebookId cfg name = .ok d) ∧
    (alGet cfg.notebook_mapping name = none →
      (cfg.default_notebook_id = none ∨ cfg.default_notebook_id = some "") →
      getNotebookId cfg name =
        .error ("Collection " ++ name ++
          " not mapped and no default_notebook_id configured")) := by
  refine ⟨?_, ?_, ?_⟩
  · intro nb hm
    unfold getNotebookId
    rw [hm]
  · intro d hm hd hne
    unfold getNotebookId
    rw [hm, hd]
    simp [pyTruthyStr, hne]
  · intro hm hd
    unfold getNotebookId
    rw [hm]
    rcases hd with hd | hd <;> rw [hd] <;> simp [pyTruthyStr]

/-- Witness for the amended C7 at concrete configurations. -/
theorem c7_amended_resolution_witness :
    getNotebookId c7cfg "a" = .ok "x" ∧
    getNotebookId exCfg "zz" =
      .error ("Collection " ++ "zz" ++
        " not mapped and no default_notebook_id configured") :=
  ⟨(c7_amended_resolution c7cfg "a").1 "x" rfl,
   (c7_amended_resolution exCfg "zz").2.2 rfl (Or.inl rfl)⟩

/-- Claim C10.  A configuration that satisfies the notebook requirement but
whose tier_config misses a required tier fails validation with an error
naming that tier; likewise a naming pattern without the tier placeholder
fails validation. -/
theorem c10_config_validation :
    (∀ (cfg : NLMConfig) (t : String),
      (cfg.notebook_mapping ≠ [] ∨ pyTruthyStr cfg.default_notebook_id = true) →
      t ∈ requiredTiers → alGet cfg.tier_config t = none →
      ∃ ms, validateConfig cfg = .error (.missingTiers ms) ∧ t ∈ ms) ∧
    (∀ cfg : NLMConfig,
      (cfg.notebook_mapping ≠ [] ∨ pyTruthyStr cfg.default_notebook_id = true) →
      hasSub ("{tier}".toList) cfg.source_naming_pattern = false →
      ∃ e, validateConfig cfg = .error e) := by
  have hcond : ∀ cfg : NLMConfig,
      (cfg.notebook_mapping ≠ [] ∨ pyTruthyStr cfg.default_notebook_id = true) →
      ¬(cfg.notebook_mapping = [] ∧ pyTruthyStr cfg.default_notebook_id = false) := by
    intro cfg h
    rintro ⟨h1, h2⟩
    rcases h with h | h
    · exact h h1
    · rw [h] at h2; cases h2
  constructor
  · intro cfg t hnb ht hmiss
    unfold validateConfig
    rw [if_neg (hcond cfg hnb)]
    have htm : t ∈ requiredTiers.filter (fun t => !(alHas cfg.tier_config t)) :=
      List.mem_filter.mpr ⟨ht, by simp [alHas, hmiss]⟩
    have hne : requiredTiers.filter (fun t => !(alHas cfg.tier_config t)) ≠ [] := by
      intro h0; rw [h0] at htm; cases htm
    rw [if_pos hne]
    exact ⟨_, rfl, htm⟩
  · intro cfg hnb hpat
    unfold validateConfig
    rw [if_neg (hcond cfg hnb)]
    by_cases hm : requiredTiers.filter (fun t => !(alHas cfg.tier_config t)) ≠ []
    · rw [if_pos hm]
      exact ⟨_, rfl⟩
    · rw [if_neg hm]
      rw [if_pos (by rw [hpat]; rfl)]
      exact ⟨.patternMissingTier, rfl⟩

/-- The configuration of the spec example, missing tier L2. -/
def c10cfg : NLMConfig := ⟨[], some "test-id", [("L0", 100), ("L1", 2000)], defaultPatternL⟩

/-- A configuration whose naming pattern lacks the tier placeholder. -/
def c10cfgB : NLMConfig :=
  ⟨[], some "test-id", [("L0", 100), ("L1", 2000), ("L2", 0)], "no-tier-placeholder".toList⟩

/-- Witness for C10 at the spec example configurations. -/
theorem c10_config_validation_witness :
    (∃ ms, validateConfig c10cfg = .error (.missingTiers ms) ∧ "L2" ∈ ms) ∧
    (∃ e, validateConfig c10cfgB = .error e) :=
  ⟨c10_config_validation.1 c10cfg "L2" (Or.inr rfl) (by decide) rfl,
   c10_config_validation.2 c10cfgB (Or.inr rfl) (by decide)⟩

/-- Claim C3 counterexample.  A batch whose second record makes the external
add_text_source fail: batch_insert propagates the error (the batch aborts),
the first record is cached, and the third record is never inserted — the
failure is not isolated to its item. -/
theorem c3_cex :
    (batchInsert exCfg exEnv "c" ⟨[], 0⟩
        [exIns "r1" "hello", exIns "r2" "boom", exIns "r3" "ok"]).1 =
      .error .insertFailed ∧
    existsRec (batchInsert exCfg exEnv "c" ⟨[], 0⟩
        [exIns "r1" "hello", exIns "r2" "boom", exIns "r3" "ok"]).2 "c" "r1" = true ∧
    existsRec (batchInsert exCfg exEnv "c" ⟨[], 0⟩
        [exIns "r1" "hello", exIns "r2" "boom", exIns "r3" "ok"]).2 "c" "r3" = false := by
  exact ⟨rfl, rfl, rfl⟩

/-- Claim C3 (amended).  A failing insert aborts batch_insert: the records
before the failure are inserted and their state kept, the error propagates,
and the failing and subsequent records are not inserted. -/
theorem c3_amended_abort (cfg : NLMConfig) (env : Env) (st : St) (collection : String)
    (ds1 : List RecD) (bad : RecD) (ds2 : List RecD) (rids : List String)
    (st1 : St) (e : InsErr)
    (h1 : batchInsert cfg env collection st ds1 = (.ok rids, st1))
    (h2 : insert cfg env st1 collection bad = .error e) :
    batchInsert cfg env collection st (ds1 ++ bad :: ds2) = (.error e, st1) := by
  induction ds1 generalizing st rids with
  | nil =>
    rw [batchInsert, Prod.mk.injEq] at h1
    obtain ⟨hfst, hsnd⟩ := h1
    subst hsnd
    simp only [List.nil_append]
    rw [batchInsert, h2]
  | cons d ds ih =>
    rw [batchInsert] at h1
    cases hins : insert cfg env st collection d with
    | error e2 =>
      rw [hins] at h1
      simp [Prod.mk.injEq] at h1
    | ok rs =>
      rw [hins] at h1
      dsimp only at h1
      cases hb : batchInsert cfg env collection rs.2 ds with
      | mk res st2 =>
        rw [hb] at h1
        cases res with
        | error e3 => simp [Prod.mk.injEq] at h1
        | ok rids2 =>
          simp only [Prod.mk.injEq] at h1
          obtain ⟨hfst, hsnd⟩ := h1
          subst hsnd
          rw [List.cons_append, batchInsert, hins]
          dsimp only
          rw [ih rs.2 rids2 hb]

/-- Witness for the amended C3 with an empty prefix before the failing
record. -/
theorem c3_amended_abort_witness :
    batchInsert exCfg exEnv "c" ⟨[], 0⟩
        ([] ++ exIns "r2" "boom" :: [exIns "r3" "ok"]) =
      (.error .insertFailed, ⟨[], 0⟩) :=
  c3_amended_abort exCfg exEnv ⟨[], 0⟩ "c" [] (exIns "r2" "boom") [exIns "r3" "ok"]
    [] ⟨[], 0⟩ .insertFailed rfl rfl

/-! ### C8: delete makes counted ids unobservable -/

/-- The condition under which the per-id loop counts an id as deleted: a
falsy cached source handle, or a source handle whose external deletion the
oracle confirms. -/
def evictCond (env : Env) (r : RecD) : Prop :=
  match alGet r "source_id" with
  | some (.str s) => s = "" ∨ env.delSource s = true
  | _ => True

theorem popRec_lookup_self (st : St) (collection rid : String) :
    alGet ((alGet (popRec st collection rid).cache collection).getD []) rid = none := by
  unfold popRec
  cases hcol : alGet st.cache collection with
  | none => simp [hcol, alGet]
  | some d => simp [alGet_alSet_self, alGet_alPop_self]

theorem popRec_lookup_other (st : St) (collection rid id : String) (h : rid ≠ id) :
    alGet ((alGet (popRec st collection rid).cache collection).getD []) id =
      alGet ((alGet st.cache collection).getD []) id := by
  unfold popRec
  cases hcol : alGet st.cache collection with
  | none => simp [hcol]
  | some d => simp [alGet_alSet_self, hcol, alGet_alPop_other _ _ _ h]

/-- Once an id is gone from the cached collection, the delete loop never
brings it back. -/
theorem deleteGo_none_stable (env : Env) (collection : String) (ids : List String) :
    ∀ (st : St) (id : String),
      alGet ((alGet st.cache collection).getD []) id = none →
      alGet ((alGet (deleteGo env collection st ids).2.cache collection).getD []) id =
        none := by
  induction ids with
  | nil => intro st id h; exact h
  | cons rid rest ih =>
    intro st id h
    rw [deleteGo]
    have hpop : alGet ((alGet (popRec st collection rid).cache collection).getD []) id =
        none := by
      by_cases hr : rid = id
      · subst hr; exact popRec_lookup_self st collection rid
      · rw [popRec_lookup_other st collection rid id hr]; exact h
    cases hlr : alGet ((alGet st.cache collection).getD []) rid with
    | none => dsimp only; exact ih st id h
    | some cached =>
      dsimp only
      cases hsid : alGet cached "source_id" with
      | none => dsimp only; exact ih _ id hpop
      | some v =>
        cases v with
        | null => dsimp only; exact ih _ id hpop
        | str sid =>
          dsimp only
          by_cases hne : sid ≠ ""
          · rw [if_pos hne]
            by_cases hdel : env.delSource sid = true
            · rw [if_pos hdel]
              dsimp only
              exact ih _ id hpop
            · rw [if_neg hdel]
              exact ih st id h
          · rw [if_neg hne]
            dsimp only
            exact ih _ id hpop

/-- The delete loop evicts every id whose cached entry satisfies the counting
condition. -/
theorem deleteGo_evicts (env : Env) (collection : String) (ids : List String) :
    ∀ (st : St) (id : String) (r : RecD),
      id ∈ ids →
      alGet ((alGet st.cache collection).getD []) id = some r →
      evictCond env r →
      alGet ((alGet (deleteGo env collection st ids).2.cache collection).getD []) id =
        none := by
  induction ids with
  | nil => intro st id r hmem; cases hmem
  | cons rid rest ih =>
    intro st id r hmem hlook hev
    rw [deleteGo]
    by_cases heq : rid = id
    · subst heq
      rw [hlook]
      dsimp only
      have hnone := popRec_lookup_self st collection rid
      cases hsid : alGet r "source_id" with
      | none => dsimp only; exact deleteGo_none_stable env collection rest _ rid hnone
      | some v =>
        cases v with
        | null => dsimp only; exact deleteGo_none_stable env collection rest _ rid hnone
        | str sid =>
          dsimp only
          unfold evictCond at hev
          rw [hsid] at hev
          by_cases hne : sid ≠ ""
          · rw [if_pos hne]
            have hdel : env.delSource sid = true := by
              rcases hev with hev | hev
              · exact absurd hev hne
              · exact hev
            rw [if_pos hdel]
            dsimp only
            exact deleteGo_none_stable env collection rest _ rid hnone
          · rw [if_neg hne]
            dsimp only
            exact deleteGo_none_stable env collection rest _ rid hnone
    · have hmem2 : id ∈ rest := by
        rcases List.mem_cons.mp hmem with h | h
        · exact absurd h.symm heq
        · exact h
      have hpop : alGet ((alGet (popRec st collection rid).cache collection).getD []) id =
          some r := by
        rw [popRec_lookup_other st collection rid id heq]; exact hlook
      cases hlr : alGet ((alGet st.cache collection).getD []) rid with
      | none => dsimp only; exact ih st id r hmem2 hlook hev
      | some cached =>
        dsimp only
        cases hsid : alGet cached "source_id" with
        | none => dsimp only; exact ih _ id r hmem2 hpop hev
        | some v =>
          cases v with
          | null => dsimp only; exact ih _ id r hmem2 hpop hev
          | str sid =>
            dsimp only
            by_cases hne : sid ≠ ""
            · rw [if_pos hne]
              by_cases hdel : env.delSource sid = true
              · rw [if_pos hdel]
                dsimp only
                exact ih _ id r hmem2 hpop hev
              · rw [if_neg hdel]
                exact ih st id r hmem2 hlook hev
            · rw [if_neg hne]
              dsimp only
              exact ih _ id r hmem2 hpop hev

/-- Claim C8.  Every id counted as deleted by delete (the cached entry had a
confirmed external deletion, or no source handle) is gone afterwards: exists
returns false and get returns the empty list. -/
theorem c8_delete_removes (env : Env) (st : St) (collection : String)
    (ids : List String) (id : String) (r : RecD)
    (hav : env.avail = true)
    (hmem : id ∈ ids)
    (hlook : alGet ((alGet st.cache collection).getD []) id = some r)
    (hev : evictCond env r) :
    existsRec (delete env st collection ids).2 collection id = false ∧
    get (delete env st collection ids).2 collection [id] = [] := by
  have h := deleteGo_evicts env collection ids st id r hmem hlook hev
  unfold delete
  rw [if_pos hav]
  exact ⟨by simp [existsRec, alHas, h], by simp [get, h]⟩

def c8rec : RecD := [("id", .str "r1"), ("source_id", .str "s1")]

def c8st : St := ⟨[("c", [("r1", c8rec)])], 0⟩

/-- Witness for C8 at a concrete one-record cache. -/
theorem c8_delete_removes_witness :
    existsRec (delete exEnv c8st "c" ["r1"]).2 "c" "r1" = false ∧
    get (delete exEnv c8st "c" ["r1"]).2 "c" ["r1"] = [] :=
  c8_delete_removes exEnv c8st "c" ["r1"] "r1" c8rec rfl
    (List.mem_singleton.mpr rfl) rfl (Or.inr rfl)

/-! ### C9: search without extractable query text -/

/-- The filter payload holds no free-text query: no query field, and (when
the conds key is present) no query-field condition among the conds. -/
def noQueryPayload : Option FT → Prop
  | none => True
  | some (.scalar _) => True
  | some (.node _ cp cs _ q _) =>
      q = none ∧ (cp = true → ∀ x ∈ cs,
        (match x with
         | FT.node _ _ _ f2 _ _ => f2 ≠ some "query"
         | FT.scalar _ => True))

theorem scanQueryConds_no_query (l : List FT)
    (h : ∀ x ∈ l,
      (match x with
       | FT.node _ _ _ f2 _ _ => f2 ≠ some "query"
       | FT.scalar _ => True)) :
    scanQueryConds l = .finished ∨ scanQueryConds l = .crashed := by
  induction l with
  | nil => left; rfl
  | cons x rest ih =>
    cases x with
    | scalar v => right; rfl
    | node o2 cp2 cs2 f2 q2 e2 =>
      have hf : f2 ≠ some "query" := by
        have := h _ (List.mem_cons_self _ _)
        simpa using this
      have hstep : scanQueryConds (FT.node o2 cp2 cs2 f2 q2 e2 :: rest) =
          scanQueryConds rest := by
        rw [scanQueryConds.eq_def]
        dsimp only
        rw [if_neg hf]
      rw [hstep]
      exact ih (fun x hx => h x (List.mem_cons_of_mem _ hx))

theorem extractQ_no_query (f : Option FT) (h : noQueryPayload f) :
    extractQ f = .noText ∨ extractQ f = .crashEx := by
  match f with
  | none => left; rfl
  | some (.scalar v) => left; rfl
  | some (.node o cp cs fl q e) =>
    obtain ⟨hq, hcs⟩ := h
    subst hq
    rw [extractQ]
    by_cases ht : ftTruthy (.node o cp cs fl none e) = true
    case neg =>
      left
      rw [if_pos (by simp [ht])]
    case pos =>
      rw [if_neg (by simp [ht])]
      rw [if_neg (by simp [Option.getD])]
      cases hcp : cp with
      | false => left; rw [if_neg (by simp)]
      | true =>
        rw [if_pos rfl]
        rcases scanQueryConds_no_query cs (hcs hcp) with hs | hs <;> rw [hs]
        · left; rfl
        · right; rfl

/-- search returns ok-empty whenever the collection resolves and the payload
has no query text, for every environment (so no external call can influence
the result). -/
theorem search_no_query_aux (cfg : NLMConfig) (env : Env) (st : St)
    (collection : String) (qv : Option (List Int))
    (sv : Option (List (String × Int))) (f : Option FT) (lim off : Nat)
    (ofl : Option (List String)) (wv : Bool) (nb : String)
    (hres : getNotebookId cfg collection = .ok nb)
    (hnq : noQueryPayload f) :
    search cfg env st collection qv sv f lim off ofl wv = .ok [] := by
  unfold search
  cases hav : env.avail with
  | false => rfl
  | true =>
    rw [if_neg (by simp)]
    rw [hres]
    dsimp only
    rcases extractQ_no_query f hnq with he | he <;> rw [he]

/-- Claim C9.  With a resolvable collection and a filter payload from which
no query text can be extracted, search returns the empty list for every
environment and every pair of vector arguments: the external query is never
consulted and the query vectors never influence the result. -/
theorem c9_search_no_query_empty (cfg : NLMConfig) (env : Env) (st : St)
    (collection : String) (qv qv2 : Option (List Int))
    (sv sv2 : Option (List (String × Int))) (f : Option FT) (lim off : Nat)
    (ofl : Option (List String)) (wv : Bool) (nb : String)
    (hres : getNotebookId cfg collection = .ok nb)
    (hnq : noQueryPayload f) :
    search cfg env st collection qv sv f lim off ofl wv = .ok [] ∧
    search cfg env st collection qv2 sv2 f lim off ofl wv = .ok [] :=
  ⟨search_no_query_aux cfg env st collection qv sv f lim off ofl wv nb hres hnq,
   search_no_query_aux cfg env st collection qv2 sv2 f lim off ofl wv nb hres hnq⟩

/-- Witness for C9 at a concrete configuration, empty payload and two
distinct vector arguments. -/
theorem c9_search_no_query_empty_witness :
    search exCfg exEnv ⟨[], 0⟩ "c" (some [1, 2]) none none 10 0 none false = .ok [] ∧
    search exCfg exEnv ⟨[], 0⟩ "c" none (some [("x", 3)]) none 10 0 none false = .ok [] :=
  c9_search_no_query_empty exCfg exEnv ⟨[], 0⟩ "c" (some [1, 2]) none none
    (some [("x", 3)]) none 10 0 none false "nb1" rfl trivial

/-! ### C5: the naming round trip under the default pattern -/

/-- Claim C5 counterexample.  Formatting with status ARCHIVED under the
default pattern and parsing back does not recover the status: the default
pattern has no status placeholder and hard-codes ACTIVE. -/
theorem c5_cex :
    parseSourceName (formatSourceName exCfg "L0".toList "resource".toList
        "abcd1234".toList "t".toList "ARCHIVED".toList) ≠
      ParsedName.fields "L0".toList "resource".toList "abcd1234".toList "t".toList
        "ARCHIVED".toList := by
  decide

/-- Claim C5 (amended).  Under the default naming pattern, for a tier in
L0, L1, L2, delimiter-free context type, hash and status, and any title,
parsing the formatted name recovers the tier, context type, hash and title
exactly, and recovers the status ACTIVE (the status argument is ignored by
the default pattern, so the original status comes back only when it was
ACTIVE). -/
theorem c5_roundtrip_amended (cfg : NLMConfig) (tier ct uh ti st : List Char)
    (hpat : cfg.source_naming_pattern = defaultPatternL)
    (htier : tier = "L0".toList ∨ tier = "L1".toList ∨ tier = "L2".toList)
    (hct : '-' ∉ ct) (huh : '-' ∉ uh) (hst : '-' ∉ st) :
    parseSourceName (formatSourceName cfg tier ct uh ti st) =
      .fields tier ct uh ti ("ACTIVE".toList) := by
  have htd : '-' ∉ tier := by
    rcases htier with h | h | h <;> subst h <;> decide
  rw [formatSourceName, hpat, fmtSubst_default]
  unfold parseSourceName
  have hsplit : splitC '-'
      (tier ++ '-' :: (ct ++ '-' :: (uh ++ '-' :: (ti ++ '-' :: "ACTIVE".toList)))) =
      tier :: ct :: uh :: (splitC '-' ti ++ ["ACTIVE".toList]) := by
    rw [splitC_append, splitC_append, splitC_append, splitC_append]
    rw [splitC_no_delim '-' tier htd, splitC_no_delim '-' ct hct,
        splitC_no_delim '-' uh huh,
        splitC_no_delim '-' ("ACTIVE".toList) (by decide)]
    simp
  rw [hsplit]
  obtain ⟨h0, t0, hti⟩ : ∃ h t, splitC '-' ti = h :: t := by
    cases hs : splitC '-' ti with
    | nil => exact absurd hs (splitC_ne_nil '-' ti)
    | cons h t => exact ⟨h, t, rfl⟩
  have hlen : (tier :: ct :: uh :: (splitC '-' ti ++ ["ACTIVE".toList])).length ≥ 5 := by
    rw [hti]
    simp
  rw [if_pos hlen]
  have hdrop : (tier :: ct :: uh :: (splitC '-' ti ++ ["ACTIVE".toList])).drop 3 =
      splitC '-' ti ++ ["ACTIVE".toList] := rfl
  have hlast : (tier :: ct :: uh :: (splitC '-' ti ++ ["ACTIVE".toList])).getLastD [] =
      "ACTIVE".toList := by
    have : tier :: ct :: uh :: (splitC '-' ti ++ ["ACTIVE".toList]) =
        (tier :: ct :: uh :: splitC '-' ti) ++ ["ACTIVE".toList] := by simp
    rw [this, getLastD_append_single]
  rw [hdrop, hlast, dropLast_append_single, joinC_splitC]
  rfl

/-- Witness for the amended C5 at concrete fields with a dash in the title
and a non-ACTIVE status. -/
theorem c5_roundtrip_amended_witness :
    parseSourceName (formatSourceName exCfg "L1".toList "resource".toList
        "abcd1234".toList "my-doc".toList "ARCHIVED".toList) =
      .fields "L1".toList "resource".toList "abcd1234".toList "my-doc".toList
        ("ACTIVE".toList) :=
  c5_roundtrip_amended exCfg "L1".toList "resource".toList "abcd1234".toList
    "my-doc".toList "ARCHIVED".toList rfl (Or.inr (Or.inl rfl))
    (by decide) (by decide) (by decide)

/-! ### C4: update keeps the stale source handle in the cache -/

/-- What a successful insert guarantees about the cache: the returned id is
the chosen record id, and the entry cached under it gives every key of the
caller data its caller value (the data spread comes last). -/
theorem insert_ok_cached (cfg : NLMConfig) (env : Env) (st : St) (collection : String)
    (data : RecD) (rid : String) (st' : St)
    (h : insert cfg env st collection data = .ok (rid, st')) :
    rid = (chooseRecordId env data st.fresh).1 ∧
    ∃ entry : RecD,
      alGet ((alGet st'.cache collection).getD []) rid = some entry ∧
      ∀ k v, alGet data k = some v → alGet entry k = some v := by
  unfold insert at h
  split at h
  · exact absurd h (by simp)
  · split at h
    · exact absurd h (by simp)
    · dsimp only at h
      split at h
      · exact absurd h (by simp)
      · try dsimp only at h
        split at h
        · exact absurd h (by simp)
        · try dsimp only at h
          split at h
          · exact absurd h (by simp)
          · try dsimp only at h
            split at h
            · exact absurd h (by simp)
            · rw [Except.ok.injEq, Prod.mk.injEq] at h
              obtain ⟨hrid, hst⟩ := h
              refine ⟨hrid.symm, ?_⟩
              subst hst
              rw [← hrid]
              dsimp only
              rw [alGet_alSet_self, Option.getD_some, alGet_alSet_self]
              refine ⟨_, rfl, ?_⟩
              intro k v hkv
              rw [alGet_dictMerge, hkv]

/-- Claim C4.  After a successful update whose caller data has no source_id
key, the cached entry under the updated id still holds the pre-update source
handle: the merged caller data (which carries the old handle) is spread last
over the freshly derived fields, overriding the handle of the replacement
source, so the cache points at the external source the update just
deleted. -/
theorem c4_update_stale_source_id (cfg : NLMConfig) (env : Env) (st : St)
    (collection id : String) (data : RecD) (r : RecD) (oldSid : String) (st' : St)
    (hc : alGet ((alGet st.cache collection).getD []) id = some r)
    (hold : alGet r "source_id" = some (.str oldSid))
    (hdat : alGet data "source_id" = none)
    (hid : id ≠ "")
    (hupd : update cfg env st collection id data = (true, st')) :
    ∃ entry : RecD,
      alGet ((alGet st'.cache collection).getD []) id = some entry ∧
      alGet entry "source_id" = some (.str oldSid) := by
  unfold update at hupd
  have hget : get st collection [id] = [r] := by
    simp [get, hc]
  rw [hget] at hupd
  dsimp only at hupd
  cases hins : insert cfg env (delete env st collection [id]).2 collection
      (dictMerge (dictMerge r data) [("id", Val.str id)]) with
  | error e =>
    rw [hins] at hupd
    exact absurd hupd (by simp)
  | ok rs =>
    rw [hins] at hupd
    dsimp only at hupd
    rw [Prod.mk.injEq] at hupd
    obtain ⟨-, hst⟩ := hupd
    obtain ⟨hrid, entry, hlook, hover⟩ :=
      insert_ok_cached cfg env (delete env st collection [id]).2 collection
        (dictMerge (dictMerge r data) [("id", Val.str id)]) rs.1 rs.2
        (by rw [hins])
    have hidlook : alGet (dictMerge (dictMerge r data) [("id", Val.str id)]) "id" =
        some (.str id) := by
      rw [alGet_dictMerge]
      simp [alGet]
    have hchoose : rs.1 = id := by
      rw [hrid]
      unfold chooseRecordId
      rw [hidlook]
      dsimp only
      rw [if_neg hid]
    have hsid : alGet (dictMerge (dictMerge r data) [("id", Val.str id)]) "source_id" =
        some (.str oldSid) := by
      rw [alGet_dictMerge]
      have h1 : alGet ([("id", Val.str id)] : RecD) "source_id" = none := by
        simp [alGet]
      rw [h1]
      rw [alGet_dictMerge, hdat, hold]
    refine ⟨entry, ?_, hover "source_id" _ hsid⟩
    rw [← hst, ← hchoose]
    exact hlook

def c4rec : RecD :=
  [("id", .str "r1"), ("source_id", .str "old-src"), ("uri", .str "viking://c/r1"),
   ("content", .str "hello")]

def c4st : St := ⟨[("c", [("r1", c4rec)])], 0⟩

/-- Witness for C4 at a concrete cached record and update payload. -/
theorem c4_update_stale_source_id_witness :
    ∃ entry : RecD,
      alGet ((alGet (update exCfg exEnv c4st "c" "r1"
          [("content", Val.str "new text")]).2.cache "c").getD []) "r1" = some entry ∧
      alGet entry "source_id" = some (.str "old-src") :=
  c4_update_stale_source_id exCfg exEnv c4st "c" "r1" [("content", Val.str "new text")]
    c4rec "old-src" (update exCfg exEnv c4st "c" "r1" [("content", Val.str "new text")]).2
    rfl rfl rfl (by decide) rfl

end NLM
